import Mathlib

/-!
Verification of the remote-proxy layer in `qcodes/instrument/remote.py`.

This file shallowly embeds the data model and operations of
`RemoteInstrument`, `RemoteComponent`, `RemoteMethod`, `RemoteParameter`
and `RemoteFunction`.  Python dicts with string keys become association
lists (`List (String × _)`) with first-match lookup; the external Manager
becomes a record carrying a response oracle and a worker-liveness flag;
every operation that may talk to the Manager returns, besides its result,
the list of Manager calls it issued, so that frame properties
("issues zero ask/write calls") are statable.
-/

/-- Values travelling over the proxy layer (arguments, results,
attribute values).  Strings and integers suffice for the properties
verified here. -/
inductive Val where
  | str : String → Val
  | int : Int → Val
  deriving DecidableEq

/-- Python truthiness for the values above: the empty string and zero
are falsy, everything else is truthy.  Used by the `if ... and value`
guard in `RemoteComponent.__init__`. -/
def Val.truthy : Val → Bool
  | Val.str s => !(s = "")
  | Val.int n => !(n = 0)

/-- Rendering of a value as Python `str()` renders it, used by the
`.format` call in `RemoteComponent.__init__`. -/
def Val.render : Val → String
  | Val.str s => s
  | Val.int n => toString n

/-- A Python dict with string keys, as an association list in insertion
order. -/
abbrev Dict := List (String × Val)

/-- Dict lookup: first binding of the key wins (`d[k]`). -/
def dlookup {α : Type} : List (String × α) → String → Option α
  | [], _ => none
  | (k, v) :: rest, key => if key = k then some v else dlookup rest key

/-- The keys of a dict, in order. -/
def dkeys {α : Type} (d : List (String × α)) : List String :=
  d.map Prod.fst

/-- Dict deletion (`del d[k]`): removes every binding of the key (dicts
built from Python have at most one). -/
def ddelete {α : Type} : List (String × α) → String → List (String × α)
  | [], _ => []
  | (k, v) :: rest, key =>
    if key = k then ddelete rest key else (k, v) :: ddelete rest key

/-- Dict update (`d[k] = v`): overwrites the first binding of the key in
place, or appends a new binding. -/
def dset {α : Type} : List (String × α) → String → α → List (String × α)
  | [], key, val => [(key, val)]
  | (k, v) :: rest, key, val =>
    if key = k then (key, val) :: rest else (k, v) :: dset rest key val

/-- One network call issued to the Manager.  `ask` is the blocking
request primitive, `write` the fire-and-forget one, `delete` the
instrument-removal request used by `close`. -/
inductive MCall where
  | ask : List Val → Dict → MCall
  | write : List Val → Dict → MCall
  | delete : Val → MCall
  deriving DecidableEq

/-- The external Manager (`src/qcodes/instrument/server.py` collaborator,
specified at its interface): a response oracle for `ask` and the
liveness state of its worker process (`_server in mp.active_children()`). -/
structure Manager where
  askFn : List Val → Dict → Val
  serverAlive : Bool

/-- Embeds `RemoteInstrument.__init__` lines 41-45: iterate over the
capability class's `shared_kwargs` name list; each name present in
`kwargs` is moved into the shared dict and deleted from `kwargs`.
Returns (shared kwargs forwarded to Manager acquisition, remaining
kwargs forwarded to the remote construction call). -/
def RemoteInstrument.extractSharedKwargs : List String → Dict → Dict × Dict
  | [], kwargs => ([], kwargs)
  | kwname :: rest, kwargs =>
    match dlookup kwargs kwname with
    | some v =>
      let p := RemoteInstrument.extractSharedKwargs rest (ddelete kwargs kwname)
      ((kwname, v) :: p.1, p.2)
    | none => RemoteInstrument.extractSharedKwargs rest kwargs

/-- Embeds `RemoteComponent.__init__`'s documentation rewrite
(`'{} {} in RemoteInstrument {}\n---\n\n{}'.format(type(self).__name__,
self.name, instrument.name, value)`): the second slot is the current
value of the component's `name` attribute, rendered as `str()` renders
it. -/
def docString (typeName : String) (nameVal : Val) (instrName : String)
    (value : Val) : String :=
  typeName ++ " " ++ nameVal.render ++ " in RemoteInstrument " ++
    instrName ++ "\n---\n\n" ++ value.render

/-- The current value of the component's `name` attribute (`self.name`)
in its attribute namespace.  The namespace always holds one — it is set
before the `setattr` loop runs — so the default never fires there. -/
def currentName (d : Dict) : Val :=
  (dlookup d "name").getD (Val.str "")

/-- Whether a descriptor entry is not the documentation field; the
entries before the first documentation entry are exactly those the
`setattr` loop has already processed when it reaches `__doc__`. -/
def notDocKey (kv : String × Val) : Bool :=
  !(kv.1 = "__doc__")

/-- The value `self.name` holds when the `setattr` loop reaches the
documentation entry: the value of a `name` entry occurring earlier in
the attribute map, if any (the loop's own `setattr` overwrote
`self.name` with it), else the constructor's `name` argument. -/
def nameAtDoc (n : String) (attrs : Dict) : Val :=
  (dlookup (attrs.takeWhile notDocKey) "name").getD (Val.str n)

/-- One `setattr(self, attribute, value)` step of the
`RemoteComponent.__init__` loop over the accumulated attribute
namespace: a truthy documentation value is rewritten with the provenance
format, reading the current `self.name` out of the namespace; every
other value is stored verbatim. -/
def setComponentAttr (typeName instrName : String) (d : Dict) :
    String × Val → Dict
  | (k, v) =>
    dset d k
      (if k = "__doc__" ∧ v.truthy = true then
        Val.str (docString typeName (currentName d) instrName v)
      else v)

/-- Embeds `RemoteComponent.__init__`: the component's attribute
namespace after construction.  `self.name = name` runs first, then every
entry of the descriptor's attribute map is set in iteration order, with
the documentation rewrite reading the namespace current at that step. -/
def componentAttrs (typeName name instrName : String) (attrs : Dict) : Dict :=
  attrs.foldl (setComponentAttr typeName instrName)
    [("name", Val.str name)]

/-- A constructed capability proxy (RemoteMethod / RemoteParameter /
RemoteFunction all specialize this state). -/
structure RemoteComponentData where
  name : String
  attrs : Dict
  deriving DecidableEq

/-- The `{name, id, methods, parameters, functions}` record the Manager
returns from its `connect` handshake: one descriptor (name, attribute
map) per remote capability. -/
structure ConnectionAttrs where
  name : String
  id : Val
  methods : List (String × Dict)
  parameters : List (String × Dict)
  functions : List (String × Dict)
  deriving DecidableEq

/-- The capability-mapping state of a `RemoteInstrument`: its name, its
remote id, and the three category mappings. -/
structure InstrumentState where
  name : String
  id : Val
  methods : List (String × RemoteComponentData)
  parameters : List (String × RemoteComponentData)
  functions : List (String × RemoteComponentData)
  deriving DecidableEq

/-- Builds one category mapping in `connect`: one proxy per descriptor,
keyed by the descriptor's name (`{name: Remote...(name, self, attrs)}`). -/
def buildCategory (typeName instrName : String)
    (descs : List (String × Dict)) : List (String × RemoteComponentData) :=
  descs.map (fun p => (p.1, ⟨p.1, componentAttrs typeName p.1 instrName p.2⟩))

/-- Embeds `RemoteInstrument.connect` lines 59-83: `self.name` and
`self._id` are taken from the connection attrs, then each of the three
category mappings is rebound to a freshly built dict comprehension. -/
def RemoteInstrument.connect (s : InstrumentState) (ca : ConnectionAttrs) :
    InstrumentState :=
  { name := ca.name
    id := ca.id
    methods := buildCategory "RemoteMethod" ca.name ca.methods
    parameters := buildCategory "RemoteParameter" ca.name ca.parameters
    functions := buildCategory "RemoteFunction" ca.name ca.functions }

/-- Embeds the local state change of `RemoteInstrument.add_parameter`:
`self.parameters[name] = RemoteParameter(name, self, attrs)`, where
`attrs` is the descriptor the server's `add_parameter` ask returned. -/
def RemoteInstrument.add_parameter (s : InstrumentState) (name : String)
    (attrs : Dict) : InstrumentState :=
  { s with
    parameters :=
      dset s.parameters name
        ⟨name, componentAttrs "RemoteParameter" name s.name attrs⟩ }

/-- The list of delegate dicts of `RemoteInstrument`, in source order
(line 33 of remote.py). -/
def RemoteInstrument.delegate_attr_dicts : List String :=
  ["_methods", "parameters", "functions"]

/-- Maps a delegate-dict name to the corresponding mapping of the
instrument state. -/
def categoryOf (s : InstrumentState) :
    String → List (String × RemoteComponentData)
  | "_methods" => s.methods
  | "parameters" => s.parameters
  | "functions" => s.functions
  | _ => []

/-- Modelled from the spec: `DelegateAttributes.__getattr__`
(qcodes/utils/helpers.py, not under src/) resolves an unqualified name
by scanning the dicts named in `delegate_attr_dicts` in order and
returning the first hit ("an unqualified name resolves by checking
methods, then parameters, then functions, first match wins"). -/
def RemoteInstrument.delegateGetattr (s : InstrumentState) (name : String) :
    Option RemoteComponentData :=
  RemoteInstrument.delegate_attr_dicts.findSome?
    (fun d => dlookup (categoryOf s d) name)

/-- The outcome of `instrument[key]`: either a proxy, or the uncaught
`KeyError` (whose Python message is the missing key itself). -/
inductive GetItemResult where
  | found : RemoteComponentData → GetItemResult
  | keyError : String → GetItemResult
  deriving DecidableEq

/-- Embeds `RemoteInstrument.__getitem__` lines 137-142: try
`self.parameters[key]`; on `KeyError`, return `self.functions[key]`,
whose own `KeyError(key)` propagates when that too misses. -/
def RemoteInstrument.getItem (s : InstrumentState) (key : String) :
    GetItemResult :=
  match dlookup s.parameters key with
  | some p => GetItemResult.found p
  | none =>
    match dlookup s.functions key with
    | some f => GetItemResult.found f
    | none => GetItemResult.keyError key

/-- A string mentions another when the latter occurs in it verbatim. -/
def mentionsText (msg sub : String) : Prop :=
  sub.data <:+: msg.data

/-- Events observable during `RemoteInstrument.close`: the local
worker-liveness check, Manager network calls, and the registry removal. -/
inductive CloseEvent where
  | livenessCheck : Bool → CloseEvent
  | managerCall : MCall → CloseEvent
  | removeInstance : Val → CloseEvent
  deriving DecidableEq

/-- Whether a close event is a Manager network call (delete, ask or
write); the liveness check and the registry removal are local. -/
def CloseEvent.isNetwork : CloseEvent → Bool
  | CloseEvent.managerCall _ => true
  | _ => false

/-- Modelled from the spec: the capability class's instance registry
(`record_instance` / `remove_instance` / `instances`, required interface
of the proxied class, not under src/); `remove_instance(proxy)` removes
the proxy from the registry. -/
def removeInstance (registry : List Val) (id : Val) : List Val :=
  registry.filter (fun x => !(decide (x = id)))

/-- Teardown-relevant state of a `RemoteInstrument`: its remote id, its
Manager reference (`none` once `del self._manager` has run, making
`hasattr(self, '_manager')` false), and the capability class's instance
registry, with this instrument recorded by its id. -/
structure InstrCloseState where
  id : Val
  manager : Option Manager
  registry : List Val

/-- Embeds `RemoteInstrument.close` lines 123-129: only if the Manager
reference still exists, check worker liveness and — only if alive —
issue the Manager delete, then drop the Manager reference;
unconditionally remove self from the class's instance registry. -/
def RemoteInstrument.close (s : InstrCloseState) :
    InstrCloseState × List CloseEvent :=
  match s.manager with
  | some m =>
    ({ id := s.id, manager := none, registry := removeInstance s.registry s.id },
     [CloseEvent.livenessCheck m.serverAlive] ++
       (if m.serverAlive then [CloseEvent.managerCall (MCall.delete s.id)] else []) ++
       [CloseEvent.removeInstance s.id])
  | none =>
    ({ id := s.id, manager := none, registry := removeInstance s.registry s.id },
     [CloseEvent.removeInstance s.id])

/-- Embeds `RemoteInstrument._ask_server`: a blocking
`manager.ask('cmd', id, funcName, *args, **kwargs)`; returns the
Manager's answer together with the one call issued. -/
def RemoteInstrument.askServer (m : Manager) (id : Val) (funcName : String)
    (args : List Val) (kwargs : Dict) : Val × List MCall :=
  let fullArgs := Val.str "cmd" :: id :: Val.str funcName :: args
  (m.askFn fullArgs kwargs, [MCall.ask fullArgs kwargs])

/-- A RemoteParameter proxy: its name plus the local-only copy of its
definition.  The validator/formatting framework is outside this core
(spec §1), so the copied definition's local behaviours are carried as
functions; what matters here is that they are consulted locally. -/
structure RemoteParam where
  name : String
  validateFn : Val → Bool
  getItemFn : Val → Val
  sweepFn : List Val → Val

/-- Embeds `RemoteParameter.get`:
`self._instrument._ask_server('get', self.name)`. -/
def RemoteParameter.get (m : Manager) (id : Val) (p : RemoteParam) :
    Val × List MCall :=
  RemoteInstrument.askServer m id "get" [Val.str p.name] []

/-- Embeds `RemoteParameter.set`: the blocking
`self._instrument._ask_server('set', self.name, value)`; the result is
discarded, only the issued calls remain. -/
def RemoteParameter.set (m : Manager) (id : Val) (p : RemoteParam)
    (value : Val) : List MCall :=
  (RemoteInstrument.askServer m id "set" [Val.str p.name, value] []).2

/-- `set(x)` immediately followed by `get()`, with the issued Manager
calls concatenated in order. -/
def RemoteParameter.setThenGet (m : Manager) (id : Val) (p : RemoteParam)
    (x : Val) : Val × List MCall :=
  let t1 := RemoteParameter.set m id p x
  let r := RemoteParameter.get m id p
  (r.1, t1 ++ r.2)

/-- Embeds `RemoteParameter.validate`: `Parameter.validate(self, value)`.
Modelled from the spec where `Parameter.validate`
(qcodes/instrument/parameter.py, not under src/) is concerned: it is
"executed locally against a local-only copy of the parameter's
definition — no round trip", so it consults the copied definition and
issues no Manager call. -/
def RemoteParameter.validate (m : Manager) (id : Val) (p : RemoteParam)
    (value : Val) : Bool × List MCall :=
  (p.validateFn value, [])

/-- Embeds `RemoteParameter.__getitem__`: `Parameter.__getitem__(self, keys)`.
Modelled from the spec where `Parameter.__getitem__` (not under src/) is
concerned: index access is executed locally against the copied
definition, with no Manager call. -/
def RemoteParameter.getItem (m : Manager) (id : Val) (p : RemoteParam)
    (keys : Val) : Val × List MCall :=
  (p.getItemFn keys, [])

/-- Embeds `RemoteParameter.sweep`: `Parameter.sweep(self, *args)`.
Modelled from the spec where `Parameter.sweep` (not under src/) is
concerned: sweep construction is executed locally against the copied
definition, with no Manager call. -/
def RemoteParameter.sweep (m : Manager) (id : Val) (p : RemoteParam)
    (args : List Val) : Val × List MCall :=
  (p.sweepFn args, [])

/-- Embeds `RemoteFunction.__call__`:
`self._instrument._ask_server('call', self.name, *args)`; remote
functions take positional arguments only (no kwargs parameter in the
signature), so the embedding carries none. -/
def RemoteFunction.callDirect (m : Manager) (id : Val) (name : String)
    (args : List Val) : Val × List MCall :=
  RemoteInstrument.askServer m id "call" (Val.str name :: args) []

/-- Embeds `RemoteFunction.call`: `return self.__call__(*args)`, an
alias; it too accepts positional arguments only. -/
def RemoteFunction.call (m : Manager) (id : Val) (name : String)
    (args : List Val) : Val × List MCall :=
  RemoteFunction.callDirect m id name args

instance (msg sub : String) : Decidable (mentionsText msg sub) := by
  unfold mentionsText
  infer_instance

/-- Concrete Manager for the teardown witness: worker reported dead. -/
def closeWitnessManager : Manager :=
  ⟨fun _ _ => Val.int 0, false⟩

/-- Concrete teardown state for the close witness: live Manager
reference, worker dead, instrument recorded in the registry. -/
def closeWitnessState : InstrCloseState :=
  ⟨Val.int 1, some closeWitnessManager, [Val.int 1]⟩

/-- Concrete instrument state for the delegate-lookup witness: the name
"x" is present in both the methods and the parameters mappings. -/
def delegateWitnessState : InstrumentState :=
  ⟨"inst", Val.int 0, [("x", ⟨"x", []⟩)],
    [("x", ⟨"x", [("k", Val.int 1)]⟩)], []⟩

/-- Concrete instrument state for the indexed-lookup witness: the name
"b" is present in both the parameters and the functions mappings. -/
def getitemWitnessState : InstrumentState :=
  ⟨"inst", Val.int 0, [], [("b", ⟨"b", []⟩)], [("b", ⟨"bf", []⟩)]⟩

/-- Concrete descriptor attribute map for the RemoteComponent witness:
a `name` entry that shadows the constructor name before a truthy
documentation entry. -/
def componentWitnessAttrs : Dict :=
  [("name", Val.str "other"), ("__doc__", Val.str "d")]

theorem dlookup_eq_none_iff {α : Type} (d : List (String × α)) (k : String) :
    dlookup d k = none ↔ k ∉ dkeys d := by
  induction d with
  | nil => simp [dlookup, dkeys]
  | cons hd tl ih =>
    obtain ⟨k0, v0⟩ := hd
    by_cases h : k = k0
    · subst h
      simp [dlookup, dkeys]
    · simpa [dlookup, dkeys, h] using ih

theorem dlookup_ddelete {α : Type} (d : List (String × α)) (k q : String) :
    dlookup (ddelete d k) q = if q = k then none else dlookup d q := by
  induction d with
  | nil =>
    simp only [ddelete, dlookup]
    split <;> rfl
  | cons hd tl ih =>
    obtain ⟨k0, v0⟩ := hd
    by_cases hk : k = k0
    · subst hk
      by_cases hq : q = k
      · subst hq
        simp [ddelete, ih]
      · simp [ddelete, dlookup, hq, ih]
    · by_cases hq : q = k0
      · have hqk : ¬ q = k := fun h => hk (h ▸ hq)
        simp [ddelete, dlookup, hk, hq, hqk]
        exact fun h => hk h.symm
      · simp [ddelete, dlookup, hk, hq, ih]

theorem dlookup_dset_self {α : Type} (d : List (String × α)) (k : String)
    (v : α) : dlookup (dset d k v) k = some v := by
  induction d with
  | nil => simp [dset, dlookup]
  | cons hd tl ih =>
    obtain ⟨k0, v0⟩ := hd
    by_cases h : k = k0
    · simp [dset, dlookup, h]
    · simp [dset, dlookup, h, ih]

theorem dlookup_dset_ne {α : Type} (d : List (String × α)) (k q : String)
    (v : α) (h : ¬ q = k) : dlookup (dset d k v) q = dlookup d q := by
  induction d with
  | nil => simp [dset, dlookup, h]
  | cons hd tl ih =>
    obtain ⟨k0, v0⟩ := hd
    by_cases hk : k = k0
    · subst hk
      simp [dset, dlookup, h]
    · by_cases hq : q = k0
      · simp [dset, dlookup, hk, hq]
      · simp [dset, dlookup, hk, hq, ih]

theorem extractSharedKwargs_fst (S : List String) :
    ∀ (K : Dict) (k : String),
    dlookup (RemoteInstrument.extractSharedKwargs S K).1 k =
      if k ∈ S then dlookup K k else none := by
  induction S with
  | nil =>
    intro K k
    simp [RemoteInstrument.extractSharedKwargs, dlookup]
  | cons s S ih =>
    intro K k
    simp only [RemoteInstrument.extractSharedKwargs]
    cases hKs : dlookup K s with
    | some v =>
      by_cases hk : k = s
      · subst hk
        simp [dlookup, hKs]
      · rw [show dlookup ((s, v) ::
            (RemoteInstrument.extractSharedKwargs S (ddelete K s)).1) k =
            dlookup (RemoteInstrument.extractSharedKwargs S (ddelete K s)).1 k
            from by simp [dlookup, hk]]
        rw [ih]
        by_cases hmem : k ∈ S
        · simp [hmem, hk, dlookup_ddelete]
        · simp [hmem, hk]
    | none =>
      rw [ih]
      by_cases hk : k = s
      · subst hk
        by_cases hmem : k ∈ S
        · simp [hmem, hKs]
        · simp [hmem, hKs]
      · simp [hk]
  
theorem extractSharedKwargs_snd (S : List String) :
    ∀ (K : Dict) (k : String),
    dlookup (RemoteInstrument.extractSharedKwargs S K).2 k =
      if k ∈ S then none else dlookup K k := by
  induction S with
  | nil =>
    intro K k
    simp [RemoteInstrument.extractSharedKwargs]
  | cons s S ih =>
    intro K k
    simp only [RemoteInstrument.extractSharedKwargs]
    cases hKs : dlookup K s with
    | some v =>
      rw [ih]
      by_cases hk : k = s
      · subst hk
        by_cases hmem : k ∈ S
        · simp [hmem]
        · simp [hmem, dlookup_ddelete]
      · by_cases hmem : k ∈ S
        · simp [hmem, hk]
        · simp [hmem, hk, dlookup_ddelete]
    | none =>
      rw [ih]
      by_cases hk : k = s
      · subst hk
        by_cases hmem : k ∈ S
        · simp [hmem]
        · simp [hmem, hKs]
      · simp [hk]

theorem foldl_setComponentAttr_not_mem (t i : String) :
    ∀ (attrs : List (String × Val)) (init : Dict) (k : String),
    k ∉ dkeys attrs →
    dlookup (attrs.foldl (setComponentAttr t i) init) k = dlookup init k := by
  intro attrs
  induction attrs with
  | nil =>
    intro init k _
    rfl
  | cons hd tl ih =>
    intro init k hk
    obtain ⟨k0, v0⟩ := hd
    have hk0 : ¬ k = k0 := by
      intro h
      exact hk (by simp [dkeys, h])
    have htl : k ∉ dkeys tl := by
      intro h
      exact hk (by simp [dkeys] at h ⊢; exact Or.inr h)
    simp only [List.foldl_cons]
    rw [ih _ k htl]
    simp only [setComponentAttr]
    exact dlookup_dset_ne init k0 k _ hk0

theorem foldl_setComponentAttr_mem (t i k : String) (v : Val) :
    ∀ (attrs : List (String × Val)) (init : Dict),
    (dkeys attrs).Nodup → (k, v) ∈ attrs →
    (¬ k = "__doc__" ∨ v.truthy = false) →
    dlookup (attrs.foldl (setComponentAttr t i) init) k = some v := by
  intro attrs
  induction attrs with
  | nil =>
    intro init _ hmem _
    cases hmem
  | cons hd tl ih =>
    intro init hnd hmem hside
    obtain ⟨k0, v0⟩ := hd
    have hcons : (k0 :: dkeys tl).Nodup := hnd
    have hnd0 : k0 ∉ dkeys tl := (List.nodup_cons.mp hcons).1
    have hndtl : (dkeys tl).Nodup := (List.nodup_cons.mp hcons).2
    simp only [List.foldl_cons]
    rcases List.mem_cons.mp hmem with heq | htl
    · have hkk : k = k0 := congrArg Prod.fst heq
      have hvv : v = v0 := congrArg Prod.snd heq
      subst hkk
      subst hvv
      rw [foldl_setComponentAttr_not_mem t i tl _ k hnd0]
      simp only [setComponentAttr]
      have hcond : ¬ (k = "__doc__" ∧ v.truthy = true) := by
        rcases hside with h | h
        · exact fun hc => h hc.1
        · intro hc
          rw [h] at hc
          exact Bool.false_ne_true hc.2
      rw [if_neg hcond]
      exact dlookup_dset_self init k v
    · exact ih _ hndtl htl hside

theorem dkeys_takeWhile_subset {α : Type} (p : String × α → Bool)
    (l : List (String × α)) (k : String) :
    k ∈ dkeys (l.takeWhile p) → k ∈ dkeys l := by
  intro h
  simp only [dkeys] at h ⊢
  obtain ⟨x, hx, hk⟩ := List.mem_map.mp h
  exact List.mem_map.mpr ⟨x, (List.takeWhile_prefix p).sublist.subset hx, hk⟩

theorem currentName_dset_name (init : Dict) (v : Val) :
    currentName (dset init "name" v) = v := by
  simp [currentName, dlookup_dset_self]

theorem currentName_dset_ne (init : Dict) (k : String) (v : Val)
    (h : ¬ k = "name") : currentName (dset init k v) = currentName init := by
  unfold currentName
  rw [dlookup_dset_ne init k "name" v (fun hh => h hh.symm)]

theorem foldl_setComponentAttr_doc (t i : String) (v : Val) :
    ∀ (attrs : List (String × Val)) (init : Dict),
    (dkeys attrs).Nodup → ("__doc__", v) ∈ attrs → v.truthy = true →
    dlookup (attrs.foldl (setComponentAttr t i) init) "__doc__" =
      some (Val.str (docString t
        ((dlookup (attrs.takeWhile notDocKey) "name").getD
          (currentName init)) i v)) := by
  intro attrs
  induction attrs with
  | nil =>
    intro init _ hmem _
    cases hmem
  | cons hd tl ih =>
    intro init hnd hmem htr
    obtain ⟨k0, v0⟩ := hd
    have hcons : (k0 :: dkeys tl).Nodup := hnd
    have hnd0 : k0 ∉ dkeys tl := (List.nodup_cons.mp hcons).1
    have hndtl : (dkeys tl).Nodup := (List.nodup_cons.mp hcons).2
    simp only [List.foldl_cons]
    by_cases hk0 : k0 = "__doc__"
    · subst hk0
      have hv0 : v = v0 := by
        rcases List.mem_cons.mp hmem with heq | htl2
        · exact congrArg Prod.snd heq
        · exact absurd (show "__doc__" ∈ dkeys tl from
            List.mem_map.mpr ⟨("__doc__", v), htl2, rfl⟩) hnd0
      subst hv0
      rw [foldl_setComponentAttr_not_mem t i tl _ _ hnd0]
      simp only [setComponentAttr]
      rw [if_pos (show True ∧ v.truthy = true from ⟨trivial, htr⟩)]
      rw [dlookup_dset_self]
      have hpre : (("__doc__", v) :: tl).takeWhile notDocKey = [] := by
        simp [List.takeWhile_cons, notDocKey]
      rw [hpre]
      rfl
    · have htl2 : ("__doc__", v) ∈ tl := by
        rcases List.mem_cons.mp hmem with heq | h
        · exact absurd (congrArg Prod.fst heq).symm hk0
        · exact h
      rw [ih _ hndtl htl2 htr]
      simp only [setComponentAttr]
      rw [if_neg (fun hc => hk0 hc.1)]
      have hpre : ((k0, v0) :: tl).takeWhile notDocKey =
          (k0, v0) :: tl.takeWhile notDocKey := by
        simp [List.takeWhile_cons, notDocKey, hk0]
      rw [hpre]
      by_cases hname : k0 = "name"
      · subst hname
        have hptl : "name" ∉ dkeys (tl.takeWhile notDocKey) :=
          fun h => hnd0 (dkeys_takeWhile_subset notDocKey tl "name" h)
        rw [(dlookup_eq_none_iff _ "name").mpr hptl]
        rw [currentName_dset_name]
        simp [dlookup]
      · rw [currentName_dset_ne init k0 v0 hname]
        have hn2 : ¬ "name" = k0 := fun h => hname h.symm
        simp [dlookup, hn2]

theorem dkeys_buildCategory (t i : String) (descs : List (String × Dict)) :
    dkeys (buildCategory t i descs) = dkeys descs := by
  induction descs with
  | nil => rfl
  | cons hd tl ih =>
    simp only [buildCategory, List.map_cons, dkeys] at ih ⊢
    rw [ih]

theorem dlookup_buildCategory (t i : String) (descs : List (String × Dict))
    (key : String) :
    dlookup (buildCategory t i descs) key =
      (dlookup descs key).map
        (fun a => ⟨key, componentAttrs t key i a⟩) := by
  induction descs with
  | nil => rfl
  | cons hd tl ih =>
    obtain ⟨k0, a0⟩ := hd
    by_cases h : key = k0
    · subst h
      simp [buildCategory, dlookup]
    · simp only [buildCategory, List.map_cons, dlookup, if_neg h] at ih ⊢
      exact ih

/-- Claim C2: `RemoteInstrument.__init__` partitions the constructor
keyword mapping into its restriction to the capability class's declared
shared-key list (forwarded only to Manager acquisition) and the
remainder (forwarded only to the remote construction call); no key
appears in both, and the concrete scenario with
shared keys ["visa_address"] and kwargs
{visa_address: "GPIB::1", range: 10} yields exactly
{visa_address: "GPIB::1"} for the Manager and {range: 10} for the
remote construction call. -/
theorem RemoteInstrument.sharedKwargs_partition :
    (∀ (S : List String) (K : Dict) (k : String),
      dlookup (RemoteInstrument.extractSharedKwargs S K).1 k =
        (if k ∈ S then dlookup K k else none) ∧
      dlookup (RemoteInstrument.extractSharedKwargs S K).2 k =
        (if k ∈ S then none else dlookup K k) ∧
      ¬(k ∈ dkeys (RemoteInstrument.extractSharedKwargs S K).1 ∧
        k ∈ dkeys (RemoteInstrument.extractSharedKwargs S K).2)) ∧
    RemoteInstrument.extractSharedKwargs ["visa_address"]
        [("visa_address", Val.str "GPIB::1"), ("range", Val.int 10)] =
      ([("visa_address", Val.str "GPIB::1")], [("range", Val.int 10)]) := by
  constructor
  · intro S K k
    refine ⟨extractSharedKwargs_fst S K k, extractSharedKwargs_snd S K k, ?_⟩
    rintro ⟨h1, h2⟩
    by_cases hmem : k ∈ S
    · have := extractSharedKwargs_snd S K k
      rw [if_pos hmem] at this
      exact (dlookup_eq_none_iff _ k).mp this h2
    · have := extractSharedKwargs_fst S K k
      rw [if_neg hmem] at this
      exact (dlookup_eq_none_iff _ k).mp this h1
  · decide

/-- Claim C5: `validate`, `sweep` and index access on a RemoteParameter
execute locally against the proxy's copied definition: each issues zero
Manager calls, and each returns the same result whatever Manager and
remote id the instrument holds. -/
theorem RemoteParameter.localOps_spec (m m2 : Manager) (id id2 : Val)
    (p : RemoteParam) (value keys : Val) (args : List Val) :
    (RemoteParameter.validate m id p value).2 = [] ∧
    (RemoteParameter.getItem m id p keys).2 = [] ∧
    (RemoteParameter.sweep m id p args).2 = [] ∧
    RemoteParameter.validate m id p value =
      RemoteParameter.validate m2 id2 p value ∧
    RemoteParameter.getItem m id p keys =
      RemoteParameter.getItem m2 id2 p keys ∧
    RemoteParameter.sweep m id p args =
      RemoteParameter.sweep m2 id2 p args :=
  ⟨rfl, rfl, rfl, rfl, rfl, rfl⟩

/-- Claim C6: `set(x)` then `get()` on a RemoteParameter issues exactly
two blocking ask calls — the 'set' request carrying the value, then the
'get' request — with no write calls, and `get()` returns exactly the
value the Manager answers for the 'get' request. -/
theorem RemoteParameter.setThenGet_spec (m : Manager) (id : Val)
    (p : RemoteParam) (x : Val) :
    (RemoteParameter.setThenGet m id p x).2 =
      [MCall.ask [Val.str "cmd", id, Val.str "set", Val.str p.name, x] [],
       MCall.ask [Val.str "cmd", id, Val.str "get", Val.str p.name] []] ∧
    (∀ a kw, MCall.write a kw ∉ (RemoteParameter.setThenGet m id p x).2) ∧
    (RemoteParameter.setThenGet m id p x).1 =
      m.askFn [Val.str "cmd", id, Val.str "get", Val.str p.name] [] := by
  refine ⟨rfl, ?_, rfl⟩
  intro a kw
  simp [RemoteParameter.setThenGet, RemoteParameter.set, RemoteParameter.get,
    RemoteInstrument.askServer]

/-- Claim C9: on a RemoteFunction, `call(*args)` and direct invocation
are the same operation: both forward exactly one
ask('cmd', id, 'call', name, *args) with no keyword arguments and
return the Manager's answer for it. -/
theorem RemoteFunction.call_spec (m : Manager) (id : Val) (name : String)
    (args : List Val) :
    RemoteFunction.call m id name args =
      RemoteFunction.callDirect m id name args ∧
    RemoteFunction.callDirect m id name args =
      (m.askFn (Val.str "cmd" :: id :: Val.str "call" ::
          Val.str name :: args) [],
        [MCall.ask (Val.str "cmd" :: id :: Val.str "call" ::
          Val.str name :: args) []]) :=
  ⟨rfl, rfl⟩

/-- Claim C10: a second `close()` after a completed `close()` performs
no Manager operation at all — no liveness check, no delete — because the
Manager-dependent branch is guarded by the existence of the Manager
reference, which the first close dropped; only the registry removal is
attempted again. -/
theorem RemoteInstrument.close_close_frame (s : InstrCloseState) :
    (RemoteInstrument.close (RemoteInstrument.close s).1).2 =
      [CloseEvent.removeInstance s.id] ∧
    (RemoteInstrument.close (RemoteInstrument.close s).1).1.manager =
      none := by
  obtain ⟨id, mgr, reg⟩ := s
  cases mgr <;> simp [RemoteInstrument.close]

/-- Claim C7: `connect()` rebuilds each of the three category mappings
wholesale from the descriptors the Manager returned: the result is
independent of the previous state, each category holds exactly one proxy
per returned descriptor (same keys, each entry built from its
descriptor), and entries present only before the call — including
proxies inserted by `add_parameter` — are no longer reachable. -/
theorem RemoteInstrument.connect_spec (s1 s2 : InstrumentState)
    (ca : ConnectionAttrs) (n : String) (attrs : Dict) :
    RemoteInstrument.connect s1 ca = RemoteInstrument.connect s2 ca ∧
    dkeys (RemoteInstrument.connect s1 ca).methods = dkeys ca.methods ∧
    dkeys (RemoteInstrument.connect s1 ca).parameters =
      dkeys ca.parameters ∧
    dkeys (RemoteInstrument.connect s1 ca).functions = dkeys ca.functions ∧
    (∀ key, dlookup (RemoteInstrument.connect s1 ca).parameters key =
      (dlookup ca.parameters key).map
        (fun a => ⟨key, componentAttrs "RemoteParameter" key ca.name a⟩)) ∧
    RemoteInstrument.connect (RemoteInstrument.add_parameter s1 n attrs) ca =
      RemoteInstrument.connect s1 ca := by
  refine ⟨rfl, ?_, ?_, ?_, ?_, rfl⟩
  · exact dkeys_buildCategory "RemoteMethod" ca.name ca.methods
  · exact dkeys_buildCategory "RemoteParameter" ca.name ca.parameters
  · exact dkeys_buildCategory "RemoteFunction" ca.name ca.functions
  · intro key
    exact dlookup_buildCategory "RemoteParameter" ca.name ca.parameters key

/-- Claim C1 counterexample: on an instrument with empty parameters and
functions mappings, `instrument["x"]` fails with a KeyError whose
message is just "x"; the message does not name both searched categories
("parameters" and "functions"), contrary to the claim. -/
theorem RemoteInstrument.getItem_missing_message_counterexample :
    RemoteInstrument.getItem ⟨"i", Val.int 0, [], [], []⟩ "x" =
      GetItemResult.keyError "x" ∧
    ¬(mentionsText "x" "parameters" ∧ mentionsText "x" "functions") := by
  constructor
  · rfl
  · intro h
    exact absurd h.1 (by decide)

/-- Claim C1 (amended): indexed lookup checks parameters then functions;
a name present in the parameters mapping — even one also present in
functions — returns the parameter proxy; a name absent from both fails
with the KeyError raised by the functions lookup, whose message is just
the missing key (it does not name the searched categories). -/
theorem RemoteInstrument.getItem_spec (s : InstrumentState) (key : String) :
    (∀ c, dlookup s.parameters key = some c →
      RemoteInstrument.getItem s key = GetItemResult.found c) ∧
    (dlookup s.parameters key = none →
      ∀ c, dlookup s.functions key = some c →
      RemoteInstrument.getItem s key = GetItemResult.found c) ∧
    (dlookup s.parameters key = none → dlookup s.functions key = none →
      RemoteInstrument.getItem s key = GetItemResult.keyError key) := by
  refine ⟨?_, ?_, ?_⟩ <;> intros <;> simp [RemoteInstrument.getItem, *]

theorem RemoteInstrument.getItem_spec_witness :
    dlookup getitemWitnessState.parameters "b" =
      some (⟨"b", []⟩ : RemoteComponentData) ∧
    RemoteInstrument.getItem getitemWitnessState "b" =
      GetItemResult.found ⟨"b", []⟩ :=
  ⟨rfl, (RemoteInstrument.getItem_spec getitemWitnessState "b").1
    ⟨"b", []⟩ rfl⟩

/-- Claim C3: unqualified name lookup on a RemoteInstrument resolves by
checking the methods mapping, then the parameters mapping, then the
functions mapping, first match wins; a name present in two categories
resolves to the proxy in the earlier category. -/
theorem RemoteInstrument.delegateGetattr_spec (s : InstrumentState)
    (name : String) :
    (∀ c, dlookup s.methods name = some c →
      RemoteInstrument.delegateGetattr s name = some c) ∧
    (dlookup s.methods name = none →
      ∀ c, dlookup s.parameters name = some c →
      RemoteInstrument.delegateGetattr s name = some c) ∧
    (dlookup s.methods name = none → dlookup s.parameters name = none →
      RemoteInstrument.delegateGetattr s name = dlookup s.functions name) := by
  refine ⟨?_, ?_, ?_⟩
  · intro c h1
    simp [RemoteInstrument.delegateGetattr,
      RemoteInstrument.delegate_attr_dicts, List.findSome?_cons,
      categoryOf, h1]
  · intro h1 c h2
    simp [RemoteInstrument.delegateGetattr,
      RemoteInstrument.delegate_attr_dicts, List.findSome?_cons,
      categoryOf, h1, h2]
  · intro h1 h2
    cases h3 : dlookup s.functions name <;>
      simp [RemoteInstrument.delegateGetattr,
        RemoteInstrument.delegate_attr_dicts, List.findSome?_cons,
        categoryOf, h1, h2, h3]

theorem RemoteInstrument.delegateGetattr_spec_witness :
    dlookup delegateWitnessState.methods "x" =
      some (⟨"x", []⟩ : RemoteComponentData) ∧
    dlookup delegateWitnessState.parameters "x" =
      some (⟨"x", [("k", Val.int 1)]⟩ : RemoteComponentData) ∧
    RemoteInstrument.delegateGetattr delegateWitnessState "x" =
      some ⟨"x", []⟩ :=
  ⟨rfl, rfl, (RemoteInstrument.delegateGetattr_spec delegateWitnessState
    "x").1 ⟨"x", []⟩ rfl⟩

/-- Claim C4: when the worker process is reported dead, `close()` issues
zero Manager network calls yet still drops the local Manager reference
and removes the instrument from the capability class's instance
registry; when the worker is alive, the liveness check precedes the
single delete call. -/
theorem RemoteInstrument.close_spec (s : InstrCloseState) (m : Manager)
    (hm : s.manager = some m) :
    (m.serverAlive = false →
      (RemoteInstrument.close s).2.filter CloseEvent.isNetwork = [] ∧
      (RemoteInstrument.close s).1.manager = none ∧
      s.id ∉ (RemoteInstrument.close s).1.registry) ∧
    (m.serverAlive = true →
      (RemoteInstrument.close s).2 =
        [CloseEvent.livenessCheck true,
         CloseEvent.managerCall (MCall.delete s.id),
         CloseEvent.removeInstance s.id]) := by
  obtain ⟨id2, mgr, reg⟩ := s
  have hm2 : mgr = some m := hm
  subst hm2
  constructor
  · intro hdead
    refine ⟨?_, ?_, ?_⟩
    · simp [RemoteInstrument.close, hdead, CloseEvent.isNetwork]
    · simp [RemoteInstrument.close]
    · simp [RemoteInstrument.close, removeInstance, List.mem_filter]
  · intro halive
    simp [RemoteInstrument.close, halive]

theorem RemoteInstrument.close_spec_witness :
    closeWitnessState.manager = some closeWitnessManager ∧
    closeWitnessManager.serverAlive = false ∧
    ((RemoteInstrument.close closeWitnessState).2.filter
        CloseEvent.isNetwork = [] ∧
      (RemoteInstrument.close closeWitnessState).1.manager = none ∧
      closeWitnessState.id ∉
        (RemoteInstrument.close closeWitnessState).1.registry) :=
  ⟨rfl, rfl, (RemoteInstrument.close_spec closeWitnessState
    closeWitnessManager rfl).1 rfl⟩

/-- Claim C8: RemoteComponent construction sets every attribute-map
entry other than the documentation field on the proxy verbatim; the
documentation field, when present and truthy, is rewritten to the
provenance format built from the specialization name, the component's
name — the value `self.name` holds when the loop reaches the entry,
which a `name` entry earlier in the map overwrites — and the owning
instrument's name; a falsy documentation value is kept verbatim, and an
absent one stays absent.  The last conjunct computes the shadowing case
concretely. -/
theorem RemoteComponent.attrs_spec (t n i : String) (attrs : Dict)
    (hnd : (dkeys attrs).Nodup) :
    (∀ k v, (k, v) ∈ attrs → ¬ k = "__doc__" →
      dlookup (componentAttrs t n i attrs) k = some v) ∧
    (∀ v, ("__doc__", v) ∈ attrs → v.truthy = true →
      dlookup (componentAttrs t n i attrs) "__doc__" =
        some (Val.str (docString t (nameAtDoc n attrs) i v))) ∧
    (∀ v, ("__doc__", v) ∈ attrs → v.truthy = false →
      dlookup (componentAttrs t n i attrs) "__doc__" = some v) ∧
    ("__doc__" ∉ dkeys attrs →
      dlookup (componentAttrs t n i attrs) "__doc__" = none) ∧
    dlookup (componentAttrs "RemoteParameter" "p" "inst"
        [("name", Val.str "other"), ("__doc__", Val.str "d")]) "__doc__" =
      some (Val.str
        "RemoteParameter other in RemoteInstrument inst\n---\n\nd") := by
  refine ⟨?_, ?_, ?_, ?_, by decide⟩
  · intro k v hmem hk
    unfold componentAttrs
    exact foldl_setComponentAttr_mem t i k v attrs _ hnd hmem (Or.inl hk)
  · intro v hmem htr
    unfold componentAttrs
    rw [foldl_setComponentAttr_doc t i v attrs _ hnd hmem htr]
    rfl
  · intro v hmem htr
    unfold componentAttrs
    exact foldl_setComponentAttr_mem t i _ v attrs _ hnd hmem (Or.inr htr)
  · intro hdoc
    unfold componentAttrs
    rw [foldl_setComponentAttr_not_mem t i attrs _ _ hdoc]
    rfl

theorem RemoteComponent.attrs_spec_witness :
    (dkeys componentWitnessAttrs).Nodup ∧
    ("__doc__", Val.str "d") ∈ componentWitnessAttrs ∧
    (Val.str "d").truthy = true ∧
    dlookup (componentAttrs "RemoteParameter" "p" "inst"
        componentWitnessAttrs) "__doc__" =
      some (Val.str (docString "RemoteParameter"
        (nameAtDoc "p" componentWitnessAttrs) "inst" (Val.str "d"))) :=
  ⟨by decide, by decide, rfl,
    (RemoteComponent.attrs_spec "RemoteParameter" "p" "inst"
      componentWitnessAttrs (by decide)).2.1 (Val.str "d")
      (by decide) rfl⟩
